import Mathlib

/-!
Verification development for the finger-snake repository.

The game tick lives in `src/components/SnakeCanvas.tsx` (`update`,
`spawnFood`, `initGame`); the streaming-session adapter lives in
`src/services/geminiLive.ts` (`connect`'s `onmessage` callback,
`sendFrame`, `disconnect`).  JavaScript numbers are modelled as real
numbers; the two `Math.random()` draws, the wander resample roll and the
`Date.now()` head stamp consumed by one tick are passed in explicitly.
-/

namespace FingerSnake

/-- A 2-D canvas-space point, the `Point` interface of `types.ts`. -/
structure Point where
  x : ℝ
  y : ℝ

/-- A snake segment: a point plus the numeric `id` field
(`SnakeSegment` in `types.ts`; ids come from the init loop index or from
`Date.now()`). -/
structure Seg where
  x : ℝ
  y : ℝ
  id : ℤ

/-- Arguments object of a tool invocation.  A field is `none` when the
corresponding property is missing or not a number, so that destructuring
yields the JS `undefined`-like absent value. -/
structure Args where
  x : Option ℝ
  y : Option ℝ

/-- One inbound function call from the backend, `fc` in the `onmessage`
loop of `connect`. -/
structure FunctionCall where
  id : String
  name : String
  args : Args

/-- The `FingerPosition` object handed to `onFingerMove` by the adapter. -/
structure FingerSignal where
  x : Option ℝ
  y : Option ℝ
  isActive : Bool

/-- The acknowledgement object passed to `session.sendToolResponse`,
carrying the invocation's id, its name and the response result string. -/
structure Ack where
  id : String
  name : String
  result : String
  deriving DecidableEq

/-- Processing of the function-call list inside the `onmessage` callback:
for each call whose name is `updateFingerPosition`, a finger signal built
from the destructured `x`/`y` is forwarded and one acknowledgement with
result `ok` is sent; a call with any other name is skipped entirely.
Returns the forwarded signals and the sent acknowledgements in arrival
order. -/
def handleToolCall : List FunctionCall → List FingerSignal × List Ack
  | [] => ([], [])
  | fc :: rest =>
    let r := handleToolCall rest
    if fc.name = "updateFingerPosition" then
      (⟨fc.args.x, fc.args.y, true⟩ :: r.1, ⟨fc.id, fc.name, "ok"⟩ :: r.2)
    else r

/-- The `onmessage` handler: when `message.toolCall` is absent nothing
happens, otherwise its function-call list is processed. -/
def onMessage (toolCall : Option (List FunctionCall)) :
    List FingerSignal × List Ack :=
  match toolCall with
  | none => ([], [])
  | some fcs => handleToolCall fcs

/-- The connection-relevant fields of `GeminiLiveService`: whether
`session` is non-null and the `isConnected` flag. -/
structure AdapterState where
  hasSession : Bool
  isConnected : Bool
  deriving DecidableEq

/-- Observable effects of the adapter methods: status-change callbacks,
console warnings and errors, and frames actually handed to the
transport. -/
inductive Event where
  | statusEv (msg : String)
  | warnEv
  | errEv
  | frameEv (data : String)
  deriving DecidableEq

/-- The `disconnect()` method: when a session exists its `close()` is
attempted inside try/catch (a throwing close only produces a console
warning) and the session reference is cleared; then `isConnected` is reset
and the status notification is emitted.  `closeFails` models whether the
underlying `close()` call throws. -/
def disconnect (s : AdapterState) (closeFails : Bool) :
    AdapterState × List Event :=
  let r1 : AdapterState × List Event :=
    if s.hasSession then
      (⟨false, s.isConnected⟩, if closeFails then [Event.warnEv] else [])
    else (s, [])
  (⟨r1.1.hasSession, false⟩, r1.2 ++ [Event.statusEv "已断开"])

/-- The `sendFrame(base64Data)` method: the frame is handed to
`sendRealtimeInput` only when a session exists and `isConnected` holds; a
throwing transport send is caught and logged, and in every case the
adapter state is left as is.  `sendFails` models whether the transport
send throws. -/
def sendFrame (s : AdapterState) (data : String) (sendFails : Bool) :
    AdapterState × List Event :=
  if s.hasSession && s.isConnected then
    if sendFails then (s, [Event.errEv]) else (s, [Event.frameEv data])
  else (s, [])

/-- Claim C1, counterexample: an inbound message with exactly one tool
invocation (so N = 1) whose name is not `updateFingerPosition` produces
zero acknowledgements, not one — the handler acknowledges only invocations
with the matching name. -/
theorem ack_not_sent_for_other_names :
    (onMessage (some [⟨"a", "otherTool", ⟨some 0.3, some 0.4⟩⟩])).2.length = 0
    ∧ (0 : ℕ) ≠ 1 := by
  refine ⟨?_, by decide⟩
  simp [onMessage, handleToolCall]

/-- Claim C1 (amended): for every inbound session message, the `onmessage`
handler sends exactly one acknowledgement per contained tool invocation
whose name is `updateFingerPosition`, in order, each correlated to that
invocation's id and name with response result `ok`; invocations with any
other name receive no acknowledgement. -/
theorem ack_exactly_for_matching_names (tc : Option (List FunctionCall)) :
    (onMessage tc).2 =
      ((tc.getD []).filter
          (fun fc => fc.name == "updateFingerPosition")).map
        (fun fc => Ack.mk fc.id fc.name "ok") := by
  cases tc with
  | none => rfl
  | some fcs =>
    induction fcs with
    | nil => rfl
    | cons fc rest ih =>
      by_cases h : fc.name = "updateFingerPosition" <;>
        simp_all [onMessage, handleToolCall, List.filter_cons]

/-- Claim C6, counterexample: for an invocation named
`updateFingerPosition` whose arguments are missing both `x` and `y`, the
adapter still forwards a finger signal (carrying the undefined
coordinates) to the steering input, contradicting the claim that no
finger signal is forwarded for malformed invocations. -/
theorem malformed_args_signal_forwarded :
    (handleToolCall [⟨"b", "updateFingerPosition", ⟨none, none⟩⟩]).1 =
      [⟨none, none, true⟩]
    ∧ ([(⟨none, none, true⟩ : FingerSignal)] ≠ []) := by
  refine ⟨?_, by simp⟩
  simp [handleToolCall]

/-- Claim C6 (amended): an invocation named `updateFingerPosition` whose
arguments have missing or invalid `x`/`y` is processed without crashing
(the handler is a total function: destructuring a present arguments
object cannot throw) and its acknowledgement is still sent, but the
adapter also forwards a finger signal carrying the missing values — the
arguments are not validated before forwarding. -/
theorem malformed_args_handled (fc : FunctionCall)
    (hname : fc.name = "updateFingerPosition") :
    handleToolCall [fc] =
      ([⟨fc.args.x, fc.args.y, true⟩], [⟨fc.id, fc.name, "ok"⟩]) := by
  simp [handleToolCall, hname]

theorem malformed_args_handled_witness :
    (FunctionCall.mk "a" "updateFingerPosition" ⟨none, none⟩).name =
      "updateFingerPosition"
    ∧ handleToolCall [⟨"a", "updateFingerPosition", ⟨none, none⟩⟩] =
        ([⟨none, none, true⟩], [⟨"a", "updateFingerPosition", "ok"⟩]) :=
  ⟨rfl, malformed_args_handled ⟨"a", "updateFingerPosition", ⟨none, none⟩⟩ rfl⟩

/-- Claim C7: `disconnect` always leaves the closed state (session
cleared, not connected) and always emits the status notification, for
every starting state and even when the underlying close throws (the
failure is only logged, never propagated — the function is total); a
second disconnect from the resulting state yields that same closed state
and emits the status notification again, so consecutive invocations are
error-free and idempotent. -/
theorem disconnect_idempotent (s : AdapterState) (b c : Bool) :
    (disconnect s b).1.hasSession = false
    ∧ (disconnect s b).1.isConnected = false
    ∧ Event.statusEv "已断开" ∈ (disconnect s b).2
    ∧ (disconnect (disconnect s b).1 c).1 = (disconnect s b).1
    ∧ Event.statusEv "已断开" ∈ (disconnect (disconnect s b).1 c).2 := by
  obtain ⟨hs, ic⟩ := s
  cases hs <;> cases b <;> cases c <;> simp [disconnect]

/-- Claim C8: `sendFrame` never changes the adapter state; the frame
reaches the transport exactly when a session exists, `isConnected` holds
and the transport send does not throw; outside the open state nothing at
all is emitted (the frame is silently dropped, nothing queued, no error
raised), and an open-state transport failure is caught, producing only an
error log. -/
theorem sendFrame_spec (s : AdapterState) (d : String) (f : Bool) :
    (sendFrame s d f).1 = s
    ∧ (Event.frameEv d ∈ (sendFrame s d f).2 ↔
        (s.hasSession = true ∧ s.isConnected = true ∧ f = false))
    ∧ (¬ (s.hasSession = true ∧ s.isConnected = true) →
        (sendFrame s d f).2 = []) := by
  obtain ⟨hs, ic⟩ := s
  cases hs <;> cases ic <;> cases f <;> simp [sendFrame]

theorem sendFrame_spec_witness :
    (sendFrame ⟨true, false⟩ "payload" false).2 = [] :=
  (sendFrame_spec ⟨true, false⟩ "payload" false).2.2 (by simp)

noncomputable section

/-- `SNAKE_SPEED`, pixels the head advances per frame. -/
def SNAKE_SPEED : ℝ := 3

/-- `TURN_RATE`, the steering blend factor. -/
def TURN_RATE : ℝ := 0.15

/-- `spawnFood`: both coordinates are `Math.random() * (dim - 40) + 20`;
`r1` and `r2` stand for the two `Math.random()` draws in `[0, 1)`. -/
def spawnFood (width height r1 r2 : ℝ) : Point :=
  ⟨r1 * (width - 40) + 20, r2 * (height - 40) + 20⟩

/-- The two sequential wall checks applied to a freshly advanced head
coordinate: first a negative value is set to the bound, then a value above
the bound is set to 0. -/
def wrapCoord (v bound : ℝ) : ℝ :=
  let v1 := if v < 0 then bound else v
  if bound < v1 then 0 else v1

/-- `segDist` of the body loop: euclidean distance from a segment to the
already-updated segment ahead of it. -/
def segDist (p c : Seg) : ℝ :=
  Real.sqrt ((p.x - c.x) * (p.x - c.x) + (p.y - c.y) * (p.y - c.y))

/-- One iteration of the body-follow loop: when the distance to the
updated predecessor `p` exceeds the spacing 10, the segment moves toward
`p` by the fraction `(segDist - 10) / segDist` of the separation vector,
keeping its id; otherwise it is pushed unchanged. -/
def relaxStep (p c : Seg) : Seg :=
  if 10 < segDist p c then
    ⟨c.x + (p.x - c.x) * ((segDist p c - 10) / segDist p c),
     c.y + (p.y - c.y) * ((segDist p c - 10) / segDist p c),
     c.id⟩
  else c

/-- The whole body loop `for (let i = 1; i < length; i++)`: each segment
follows the segment written into `newSnake` just before it. -/
def relaxChain (p : Seg) : List Seg → List Seg
  | [] => []
  | c :: rest =>
    let c2 := relaxStep p c
    c2 :: relaxChain c2 rest

/-- The blended, pre-normalisation direction: each component is
`direction + (desired - direction) * TURN_RATE` with the desired unit
direction `(dx, dy) / dist`. -/
def blendVec (d : Point) (dx dy dist : ℝ) : Point :=
  ⟨d.x + (dx / dist - d.x) * TURN_RATE,
   d.y + (dy / dist - d.y) * TURN_RATE⟩

/-- Blend followed by renormalisation: the blended vector is divided by
its own length `dirLen`. -/
def blendNormalize (d : Point) (dx dy dist : ℝ) : Point :=
  let b := blendVec d dx dy dist
  let dirLen := Real.sqrt (b.x * b.x + b.y * b.y)
  ⟨b.x / dirLen, b.y / dirLen⟩

/-- The whole mutable game state held in refs by `SnakeCanvas`. -/
structure GState where
  snake : List Seg
  food : Point
  direction : Point
  score : ℤ
  wanderTarget : Option Point

/-- Randomness and the timestamp consumed by one `update` call:
`resampleRoll` is the outcome of the 2% wander test, `wanderPos` the
freshly drawn wander target, `foodR1` and `foodR2` the draws used by
`spawnFood`, and `newId` the `Date.now()` stamp given to the new head. -/
structure Rand where
  resampleRoll : Bool
  wanderPos : Point
  foodR1 : ℝ
  foodR2 : ℝ
  newId : ℤ

/-- Target selection at the top of `update`: an active finger position is
scaled into canvas space; otherwise the current wander target is used,
resampled when absent or when the 2% roll fires.  Returns the target and
the new wander-target ref value. -/
def resolveTarget (width height : ℝ) (finger : Option Point) (rand : Rand)
    (wt : Option Point) : Point × Option Point :=
  match finger with
  | some f => (⟨f.x * width, f.y * height⟩, wt)
  | none =>
    match wt with
    | none => (rand.wanderPos, some rand.wanderPos)
    | some w0 =>
      if rand.resampleRoll then (rand.wanderPos, some rand.wanderPos)
      else (w0, some w0)

/-- The `dist > 10` branch of `update`: blend and renormalise the
direction, advance the head by `SNAKE_SPEED` along it, wrap both head
coordinates, then run the body loop against the new head. -/
def moveBranch (width height : ℝ) (newId : ℤ) (direction : Point)
    (head : Seg) (rest : List Seg) (dx dy dist : ℝ) : Point × List Seg :=
  let nd := blendNormalize direction dx dy dist
  let nh : Seg := ⟨wrapCoord (head.x + nd.x * SNAKE_SPEED) width,
                   wrapCoord (head.y + nd.y * SNAKE_SPEED) height, newId⟩
  (nd, nh :: relaxChain nh rest)

/-- Body of `update` for a non-empty snake: resolve the target, move and
relax only when the head is farther than the 10-unit deadband from the
target, then test food collision against the head position read at the
start of the tick; a pickup adds 10 to the score, appends five copies of
the current tail and respawns the food. -/
def updateCore (width height : ℝ) (finger : Option Point) (rand : Rand)
    (s : GState) (head : Seg) (rest : List Seg) : GState :=
  let tw := resolveTarget width height finger rand s.wanderTarget
  let dx := tw.1.x - head.x
  let dy := tw.1.y - head.y
  let dist := Real.sqrt (dx * dx + dy * dy)
  let ds := if 10 < dist then
      moveBranch width height rand.newId s.direction head rest dx dy dist
    else (s.direction, head :: rest)
  let foodDx := head.x - s.food.x
  let foodDy := head.y - s.food.y
  if Real.sqrt (foodDx * foodDx + foodDy * foodDy) < 20 then
    { snake := ds.2 ++ List.replicate 5 (ds.2.getLastD head),
      food := spawnFood width height rand.foodR1 rand.foodR2,
      direction := ds.1,
      score := s.score + 10,
      wanderTarget := tw.2 }
  else
    { snake := ds.2, food := s.food, direction := ds.1, score := s.score,
      wanderTarget := tw.2 }

/-- One tick of the game loop, the `update` callback of `SnakeCanvas`
while playing; a no-op on an empty (uninitialised) snake. -/
def update (width height : ℝ) (finger : Option Point) (rand : Rand)
    (s : GState) : GState :=
  match s.snake with
  | [] => s
  | head :: rest => updateCore width height finger rand s head rest

/-- `initGame`: ten segments half a grid cell (10 units) apart with ids
0..9, direction (1, 0), score 0 and a fresh food spawn; the wander ref is
not touched by the source's init, so its current value is threaded
through. -/
def initGame (width height r1 r2 : ℝ) (wt : Option Point) : GState :=
  { snake := (List.range 10).map fun (i : ℕ) =>
      ⟨width / 2 - (i : ℝ) * (20 / 2), height / 2, (i : ℤ)⟩,
    food := spawnFood width height r1 r2,
    direction := ⟨1, 0⟩,
    score := 0,
    wanderTarget := wt }

/-- Claim C2 (amended): a head coordinate leaving the play area is placed
exactly at the opposite edge, discarding the overshoot — a negative value
becomes `bound`, a value above `bound` becomes 0 — and an in-range
coordinate is left unchanged; the wrap is therefore not
overshoot-preserving. -/
theorem wrapCoord_cases (v bound : ℝ) (hb : 0 ≤ bound) :
    (v < 0 → wrapCoord v bound = bound)
    ∧ (bound < v → wrapCoord v bound = 0)
    ∧ (0 ≤ v → v ≤ bound → wrapCoord v bound = v) := by
  simp only [wrapCoord]
  refine ⟨fun hv => ?_, fun hv => ?_, fun h1 h2 => ?_⟩
  · rw [if_pos hv, if_neg (lt_irrefl bound)]
  · rw [if_neg (not_lt.mpr (le_trans hb hv.le)), if_pos hv]
  · rw [if_neg (not_lt.mpr h1), if_neg (not_lt.mpr h2)]

theorem wrapCoord_cases_witness :
    (0 : ℝ) ≤ 600
    ∧ (((-5 : ℝ) < 0 → wrapCoord (-5) 600 = 600)
      ∧ ((600 : ℝ) < -5 → wrapCoord (-5) 600 = 0)
      ∧ ((0 : ℝ) ≤ -5 → (-5 : ℝ) ≤ 600 → wrapCoord (-5) 600 = -5)) :=
  ⟨by norm_num, wrapCoord_cases (-5) 600 (by norm_num)⟩

/-- The follow step never changes a segment's id. -/
theorem relaxStep_id (p c : Seg) : (relaxStep p c).id = c.id := by
  unfold relaxStep
  split <;> rfl

/-- The body loop preserves the chain length. -/
theorem relaxChain_length (p : Seg) (l : List Seg) :
    (relaxChain p l).length = l.length := by
  induction l generalizing p with
  | nil => rfl
  | cons c rest ih => simp [relaxChain, ih]

/-- The body loop preserves every segment's id, in order. -/
theorem relaxChain_map_id (p : Seg) (l : List Seg) :
    (relaxChain p l).map Seg.id = l.map Seg.id := by
  induction l generalizing p with
  | nil => rfl
  | cons c rest ih => simp [relaxChain, ih, relaxStep_id]

/-- Each output of the body loop is the follow step applied to the input
segment and the already-updated predecessor (the new head for the first
body segment, the previous output otherwise). -/
theorem relaxChain_getD (l : List Seg) (p dflt : Seg) (i : ℕ)
    (hi : i < l.length) :
    (relaxChain p l).getD i dflt =
      relaxStep (if i = 0 then p else (relaxChain p l).getD (i - 1) dflt)
        (l.getD i dflt) := by
  induction l generalizing p i with
  | nil => simp at hi
  | cons c rest ih =>
    cases i with
    | zero => simp [relaxChain]
    | succ j =>
      have hj : j < rest.length := Nat.lt_of_succ_lt_succ hi
      simp only [relaxChain, List.getD_cons_succ]
      rw [ih (relaxStep p c) j hj]
      cases j with
      | zero => simp [relaxChain]
      | succ k => simp [relaxChain, List.getD_cons_succ]

/-- When the distance to the updated predecessor exceeds the spacing, the
moved segment ends exactly at spacing distance 10 from it. -/
theorem relaxStep_dist (p c : Seg) (h : 10 < segDist p c) :
    segDist p (relaxStep p c) = 10 := by
  have hd0 : (0 : ℝ) < segDist p c := lt_trans (by norm_num) h
  have hdne : segDist p c ≠ 0 := ne_of_gt hd0
  rw [relaxStep, if_pos h]
  show Real.sqrt _ = 10
  have hx : p.x - (c.x + (p.x - c.x) * ((segDist p c - 10) / segDist p c))
      = (p.x - c.x) * (10 / segDist p c) := by
    field_simp
    ring
  have hy : p.y - (c.y + (p.y - c.y) * ((segDist p c - 10) / segDist p c))
      = (p.y - c.y) * (10 / segDist p c) := by
    field_simp
    ring
  dsimp only
  rw [hx, hy]
  have harg : ((p.x - c.x) * (10 / segDist p c)) *
        ((p.x - c.x) * (10 / segDist p c)) +
      ((p.y - c.y) * (10 / segDist p c)) *
        ((p.y - c.y) * (10 / segDist p c))
      = (10 / segDist p c) ^ 2 *
        ((p.x - c.x) * (p.x - c.x) + (p.y - c.y) * (p.y - c.y)) := by
    ring
  rw [harg, Real.sqrt_mul (sq_nonneg _),
    Real.sqrt_sq (div_nonneg (by norm_num) hd0.le)]
  have hS : Real.sqrt ((p.x - c.x) * (p.x - c.x) + (p.y - c.y) * (p.y - c.y))
      = segDist p c := rfl
  rw [hS]
  field_simp

/-- Claim C4: in the body loop, with `p` the already-updated predecessor
of the i-th segment `c` and `d` their distance, the output segment moves
toward `p` by the fraction `(d - 10) / d` of the separation vector exactly
when `d` exceeds the spacing 10, landing exactly at distance 10 from `p`;
otherwise it is left unchanged. -/
theorem relax_spacing_spec (p : Seg) (l : List Seg) (i : ℕ)
    (hi : i < l.length) :
    (10 < segDist (if i = 0 then p else (relaxChain p l).getD (i - 1) p)
        (l.getD i p) →
      (relaxChain p l).getD i p =
        ⟨(l.getD i p).x +
            ((if i = 0 then p else (relaxChain p l).getD (i - 1) p).x -
              (l.getD i p).x) *
            ((segDist (if i = 0 then p else (relaxChain p l).getD (i - 1) p)
                (l.getD i p) - 10) /
              segDist (if i = 0 then p else (relaxChain p l).getD (i - 1) p)
                (l.getD i p)),
         (l.getD i p).y +
            ((if i = 0 then p else (relaxChain p l).getD (i - 1) p).y -
              (l.getD i p).y) *
            ((segDist (if i = 0 then p else (relaxChain p l).getD (i - 1) p)
                (l.getD i p) - 10) /
              segDist (if i = 0 then p else (relaxChain p l).getD (i - 1) p)
                (l.getD i p)),
         (l.getD i p).id⟩
      ∧ segDist (if i = 0 then p else (relaxChain p l).getD (i - 1) p)
          ((relaxChain p l).getD i p) = 10)
    ∧ (¬ 10 < segDist (if i = 0 then p else (relaxChain p l).getD (i - 1) p)
          (l.getD i p) →
        (relaxChain p l).getD i p = l.getD i p) := by
  rw [relaxChain_getD l p p i hi]
  constructor
  · intro hgt
    refine ⟨?_, relaxStep_dist _ _ hgt⟩
    rw [relaxStep, if_pos hgt]
  · intro hle
    rw [relaxStep, if_neg hle]

theorem relax_spacing_spec_witness :
    (0 : ℕ) < [(⟨30, 40, 1⟩ : Seg)].length
    ∧ ((10 < segDist
          (if 0 = 0 then (⟨0, 0, 0⟩ : Seg)
            else (relaxChain ⟨0, 0, 0⟩ [⟨30, 40, 1⟩]).getD (0 - 1) ⟨0, 0, 0⟩)
          ([(⟨30, 40, 1⟩ : Seg)].getD 0 ⟨0, 0, 0⟩) →
        (relaxChain (⟨0, 0, 0⟩ : Seg) [⟨30, 40, 1⟩]).getD 0 ⟨0, 0, 0⟩ =
          ⟨([(⟨30, 40, 1⟩ : Seg)].getD 0 ⟨0, 0, 0⟩).x +
              ((if 0 = 0 then (⟨0, 0, 0⟩ : Seg)
                  else (relaxChain ⟨0, 0, 0⟩ [⟨30, 40, 1⟩]).getD (0 - 1)
                    ⟨0, 0, 0⟩).x -
                ([(⟨30, 40, 1⟩ : Seg)].getD 0 ⟨0, 0, 0⟩).x) *
              ((segDist
                  (if 0 = 0 then (⟨0, 0, 0⟩ : Seg)
                    else (relaxChain ⟨0, 0, 0⟩ [⟨30, 40, 1⟩]).getD (0 - 1)
                      ⟨0, 0, 0⟩)
                  ([(⟨30, 40, 1⟩ : Seg)].getD 0 ⟨0, 0, 0⟩) - 10) /
                segDist
                  (if 0 = 0 then (⟨0, 0, 0⟩ : Seg)
                    else (relaxChain ⟨0, 0, 0⟩ [⟨30, 40, 1⟩]).getD (0 - 1)
                      ⟨0, 0, 0⟩)
                  ([(⟨30, 40, 1⟩ : Seg)].getD 0 ⟨0, 0, 0⟩)),
           ([(⟨30, 40, 1⟩ : Seg)].getD 0 ⟨0, 0, 0⟩).y +
              ((if 0 = 0 then (⟨0, 0, 0⟩ : Seg)
                  else (relaxChain ⟨0, 0, 0⟩ [⟨30, 40, 1⟩]).getD (0 - 1)
                    ⟨0, 0, 0⟩).y -
                ([(⟨30, 40, 1⟩ : Seg)].getD 0 ⟨0, 0, 0⟩).y) *
              ((segDist
                  (if 0 = 0 then (⟨0, 0, 0⟩ : Seg)
                    else (relaxChain ⟨0, 0, 0⟩ [⟨30, 40, 1⟩]).getD (0 - 1)
                      ⟨0, 0, 0⟩)
                  ([(⟨30, 40, 1⟩ : Seg)].getD 0 ⟨0, 0, 0⟩) - 10) /
                segDist
                  (if 0 = 0 then (⟨0, 0, 0⟩ : Seg)
                    else (relaxChain ⟨0, 0, 0⟩ [⟨30, 40, 1⟩]).getD (0 - 1)
                      ⟨0, 0, 0⟩)
                  ([(⟨30, 40, 1⟩ : Seg)].getD 0 ⟨0, 0, 0⟩)),
           ([(⟨30, 40, 1⟩ : Seg)].getD 0 ⟨0, 0, 0⟩).id⟩
        ∧ segDist
            (if 0 = 0 then (⟨0, 0, 0⟩ : Seg)
              else (relaxChain ⟨0, 0, 0⟩ [⟨30, 40, 1⟩]).getD (0 - 1) ⟨0, 0, 0⟩)
            ((relaxChain (⟨0, 0, 0⟩ : Seg) [⟨30, 40, 1⟩]).getD 0 ⟨0, 0, 0⟩) =
          10)
      ∧ (¬ 10 < segDist
            (if 0 = 0 then (⟨0, 0, 0⟩ : Seg)
              else (relaxChain ⟨0, 0, 0⟩ [⟨30, 40, 1⟩]).getD (0 - 1) ⟨0, 0, 0⟩)
            ([(⟨30, 40, 1⟩ : Seg)].getD 0 ⟨0, 0, 0⟩) →
          (relaxChain (⟨0, 0, 0⟩ : Seg) [⟨30, 40, 1⟩]).getD 0 ⟨0, 0, 0⟩ =
            [(⟨30, 40, 1⟩ : Seg)].getD 0 ⟨0, 0, 0⟩)) :=
  ⟨by simp, relax_spacing_spec ⟨0, 0, 0⟩ [⟨30, 40, 1⟩] 0 (by simp)⟩

/-- Unfolding of `update` on a non-empty snake. -/
theorem update_eq (width height : ℝ) (finger : Option Point) (rand : Rand)
    (s : GState) (head : Seg) (rest : List Seg)
    (hs : s.snake = head :: rest) :
    update width height finger rand s =
      updateCore width height finger rand s head rest := by
  unfold update
  rw [hs]

/-- The blended vector's squared length is at least 49/100 whenever the
previous direction and the desired direction are unit vectors: blending
with factor 0.15 keeps the vector at distance at least 0.7 from the
origin, so the renormalisation divisor cannot vanish. -/
theorem blend_sq_lower (dirx diry ex ey : ℝ)
    (hd : dirx * dirx + diry * diry = 1) (he : ex * ex + ey * ey = 1) :
    (49 : ℝ) / 100 ≤
      (dirx + (ex - dirx) * TURN_RATE) * (dirx + (ex - dirx) * TURN_RATE)
      + (diry + (ey - diry) * TURN_RATE) * (diry + (ey - diry) * TURN_RATE) := by
  have ht : TURN_RATE = 3 / 20 := by norm_num [TURN_RATE]
  rw [ht]
  nlinarith [sq_nonneg (dirx + ex), sq_nonneg (diry + ey)]

/-- The desired direction computed in the moving branch is a unit vector
whenever the distance is positive. -/
theorem desired_unit (dx dy : ℝ)
    (h10 : 10 < Real.sqrt (dx * dx + dy * dy)) :
    (dx / Real.sqrt (dx * dx + dy * dy)) * (dx / Real.sqrt (dx * dx + dy * dy))
      + (dy / Real.sqrt (dx * dx + dy * dy)) *
        (dy / Real.sqrt (dx * dx + dy * dy)) = 1 := by
  have h0 : (0 : ℝ) < Real.sqrt (dx * dx + dy * dy) :=
    lt_trans (by norm_num) h10
  have hsq : Real.sqrt (dx * dx + dy * dy) * Real.sqrt (dx * dx + dy * dy)
      = dx * dx + dy * dy :=
    Real.mul_self_sqrt (add_nonneg (mul_self_nonneg dx) (mul_self_nonneg dy))
  field_simp
  linarith [hsq]

/-- The squared length of the blended vector, bounded below. -/
theorem blendVec_sq_lower (d : Point) (dx dy : ℝ)
    (hd : d.x * d.x + d.y * d.y = 1)
    (h10 : 10 < Real.sqrt (dx * dx + dy * dy)) :
    (49 : ℝ) / 100 ≤
      (blendVec d dx dy (Real.sqrt (dx * dx + dy * dy))).x *
        (blendVec d dx dy (Real.sqrt (dx * dx + dy * dy))).x
      + (blendVec d dx dy (Real.sqrt (dx * dx + dy * dy))).y *
        (blendVec d dx dy (Real.sqrt (dx * dx + dy * dy))).y := by
  have he := desired_unit dx dy h10
  simpa [blendVec] using
    blend_sq_lower d.x d.y (dx / Real.sqrt (dx * dx + dy * dy))
      (dy / Real.sqrt (dx * dx + dy * dy)) hd he

/-- After blending and renormalising, the direction is exactly a unit
vector (in the real-number model; the float code is within rounding of
it). -/
theorem blendNormalize_unit (d : Point) (dx dy : ℝ)
    (hd : d.x * d.x + d.y * d.y = 1)
    (h10 : 10 < Real.sqrt (dx * dx + dy * dy)) :
    (blendNormalize d dx dy (Real.sqrt (dx * dx + dy * dy))).x *
      (blendNormalize d dx dy (Real.sqrt (dx * dx + dy * dy))).x
    + (blendNormalize d dx dy (Real.sqrt (dx * dx + dy * dy))).y *
      (blendNormalize d dx dy (Real.sqrt (dx * dx + dy * dy))).y = 1 := by
  have hb := blendVec_sq_lower d dx dy hd h10
  set b := blendVec d dx dy (Real.sqrt (dx * dx + dy * dy)) with hbdef
  have hbsq : (0 : ℝ) < b.x * b.x + b.y * b.y := lt_of_lt_of_le (by norm_num) hb
  have hL : (0 : ℝ) < Real.sqrt (b.x * b.x + b.y * b.y) :=
    Real.sqrt_pos.mpr hbsq
  have hLsq : Real.sqrt (b.x * b.x + b.y * b.y) *
      Real.sqrt (b.x * b.x + b.y * b.y) = b.x * b.x + b.y * b.y :=
    Real.mul_self_sqrt hbsq.le
  show b.x / Real.sqrt (b.x * b.x + b.y * b.y) *
      (b.x / Real.sqrt (b.x * b.x + b.y * b.y))
    + b.y / Real.sqrt (b.x * b.x + b.y * b.y) *
      (b.y / Real.sqrt (b.x * b.x + b.y * b.y)) = 1
  rw [div_mul_div_comm, div_mul_div_comm, div_add_div_same, hLsq]
  exact div_self (ne_of_gt hbsq)

/-- Claim C3: starting from any unit direction (in particular the initial
direction (1, 0) set by `initGame`), one tick of `update` leaves the
direction a unit vector, whether the tick held the previous direction
(target within the deadband) or blended toward the desired direction and
renormalised; moreover the renormalisation divisor is strictly positive
for every unit previous direction, so the division is never by zero. -/
theorem direction_unit_invariant (w h : ℝ) (finger : Option Point)
    (rand : Rand) (s : GState)
    (hunit : s.direction.x * s.direction.x +
      s.direction.y * s.direction.y = 1) :
    ((update w h finger rand s).direction.x *
        (update w h finger rand s).direction.x
      + (update w h finger rand s).direction.y *
        (update w h finger rand s).direction.y = 1)
    ∧ ((initGame w h rand.foodR1 rand.foodR2 s.wanderTarget).direction.x *
        (initGame w h rand.foodR1 rand.foodR2 s.wanderTarget).direction.x
      + (initGame w h rand.foodR1 rand.foodR2 s.wanderTarget).direction.y *
        (initGame w h rand.foodR1 rand.foodR2 s.wanderTarget).direction.y = 1)
    ∧ (∀ (d : Point) (dx dy : ℝ),
        d.x * d.x + d.y * d.y = 1 →
        10 < Real.sqrt (dx * dx + dy * dy) →
        0 < Real.sqrt
          ((blendVec d dx dy (Real.sqrt (dx * dx + dy * dy))).x *
              (blendVec d dx dy (Real.sqrt (dx * dx + dy * dy))).x
            + (blendVec d dx dy (Real.sqrt (dx * dx + dy * dy))).y *
              (blendVec d dx dy (Real.sqrt (dx * dx + dy * dy))).y)) := by
  refine ⟨?_, by norm_num [initGame], fun d dx dy hd h10 => ?_⟩
  · rcases hsn : s.snake with _ | ⟨head, rest⟩
    · have : update w h finger rand s = s := by
        unfold update
        rw [hsn]
      rw [this]
      exact hunit
    · rw [update_eq w h finger rand s head rest hsn]
      simp only [updateCore]
      split
      · dsimp only
        split
        · next hgt =>
          exact blendNormalize_unit s.direction _ _ hunit hgt
        · exact hunit
      · dsimp only
        split
        · next hgt =>
          exact blendNormalize_unit s.direction _ _ hunit hgt
        · exact hunit
  · exact Real.sqrt_pos.mpr
      (lt_of_lt_of_le (by norm_num) (blendVec_sq_lower d dx dy hd h10))

theorem direction_unit_invariant_witness :
    ((Point.mk 1 0).x * (Point.mk 1 0).x +
      (Point.mk 1 0).y * (Point.mk 1 0).y = 1)
    ∧ (((update 600 600 none ⟨false, ⟨0, 0⟩, 0, 0, 7⟩
          ⟨[⟨0, 0, 0⟩], ⟨300, 300⟩, ⟨1, 0⟩, 0, none⟩).direction.x *
        (update 600 600 none ⟨false, ⟨0, 0⟩, 0, 0, 7⟩
          ⟨[⟨0, 0, 0⟩], ⟨300, 300⟩, ⟨1, 0⟩, 0, none⟩).direction.x
      + (update 600 600 none ⟨false, ⟨0, 0⟩, 0, 0, 7⟩
          ⟨[⟨0, 0, 0⟩], ⟨300, 300⟩, ⟨1, 0⟩, 0, none⟩).direction.y *
        (update 600 600 none ⟨false, ⟨0, 0⟩, 0, 0, 7⟩
          ⟨[⟨0, 0, 0⟩], ⟨300, 300⟩, ⟨1, 0⟩, 0, none⟩).direction.y = 1)) :=
  ⟨by norm_num,
    (direction_unit_invariant 600 600 none ⟨false, ⟨0, 0⟩, 0, 0, 7⟩
      ⟨[⟨0, 0, 0⟩], ⟨300, 300⟩, ⟨1, 0⟩, 0, none⟩ (by norm_num)).1⟩

/-- Claim C5: when the tick-start head is within pickup radius 20 of the
food, the tick atomically adds exactly 10 to the score, appends exactly
five segments all equal to the (post-move) tail, and respawns the food at
the affine image of the two uniform draws, which lies inside the canvas
with a 20-unit margin on both axes whenever the draws are in the unit
interval; when the head is at distance at least 20 neither the score, the
chain length nor the food change. -/
theorem food_pickup_spec (w h : ℝ) (finger : Option Point) (rand : Rand)
    (s : GState) (head : Seg) (rest : List Seg)
    (hs : s.snake = head :: rest) :
    (Real.sqrt ((head.x - s.food.x) * (head.x - s.food.x) +
        (head.y - s.food.y) * (head.y - s.food.y)) < 20 →
      (update w h finger rand s).score = s.score + 10
      ∧ (∃ moved : List Seg, moved.length = s.snake.length ∧
          (update w h finger rand s).snake =
            moved ++ List.replicate 5 (moved.getLastD head))
      ∧ (update w h finger rand s).food =
          spawnFood w h rand.foodR1 rand.foodR2
      ∧ (0 ≤ rand.foodR1 → rand.foodR1 ≤ 1 → 40 ≤ w →
          20 ≤ (update w h finger rand s).food.x ∧
            (update w h finger rand s).food.x ≤ w - 20)
      ∧ (0 ≤ rand.foodR2 → rand.foodR2 ≤ 1 → 40 ≤ h →
          20 ≤ (update w h finger rand s).food.y ∧
            (update w h finger rand s).food.y ≤ h - 20))
    ∧ (¬ Real.sqrt ((head.x - s.food.x) * (head.x - s.food.x) +
          (head.y - s.food.y) * (head.y - s.food.y)) < 20 →
        (update w h finger rand s).score = s.score
        ∧ (update w h finger rand s).snake.length = s.snake.length
        ∧ (update w h finger rand s).food = s.food) := by
  rw [update_eq w h finger rand s head rest hs]
  simp only [updateCore]
  constructor
  · intro hfd
    rw [if_pos hfd]
    refine ⟨rfl, ?_, rfl, fun h1 h2 h3 => ?_, fun h1 h2 h3 => ?_⟩
    · refine ⟨_, ?_, rfl⟩
      split
      · simp [moveBranch, relaxChain_length, hs]
      · simp [hs]
    · constructor
      · simp only [spawnFood]
        nlinarith
      · simp only [spawnFood]
        nlinarith
    · constructor
      · simp only [spawnFood]
        nlinarith
      · simp only [spawnFood]
        nlinarith
  · intro hfd
    rw [if_neg hfd]
    refine ⟨rfl, ?_, rfl⟩
    split
    · simp [moveBranch, relaxChain_length, hs]
    · simp [hs]

theorem food_pickup_spec_witness :
    ((⟨[⟨0, 0, 0⟩], ⟨3, 4⟩, ⟨1, 0⟩, 0, none⟩ : GState).snake =
      (⟨0, 0, 0⟩ : Seg) :: [])
    ∧ (update 600 600 (some ⟨0, 0⟩) ⟨false, ⟨0, 0⟩, 0, 0, 7⟩
        ⟨[⟨0, 0, 0⟩], ⟨3, 4⟩, ⟨1, 0⟩, 0, none⟩).score = 0 + 10 := by
  have hfd : Real.sqrt (((0 : ℝ) - 3) * ((0 : ℝ) - 3) +
      ((0 : ℝ) - 4) * ((0 : ℝ) - 4)) < 20 := by
    rw [show ((0 : ℝ) - 3) * ((0 : ℝ) - 3) +
        ((0 : ℝ) - 4) * ((0 : ℝ) - 4) = 5 ^ 2 by norm_num,
      Real.sqrt_sq (by norm_num : (0 : ℝ) ≤ 5)]
    norm_num
  have hmain := food_pickup_spec 600 600 (some ⟨0, 0⟩) ⟨false, ⟨0, 0⟩, 0, 0, 7⟩
    ⟨[⟨0, 0, 0⟩], ⟨3, 4⟩, ⟨1, 0⟩, 0, none⟩ ⟨0, 0, 0⟩ [] rfl
  exact ⟨rfl, (hmain.1 hfd).1⟩

/-- Claim C10: when the resolved target is within the 10-unit deadband of
the head, the tick changes neither the head position, any body-segment
position, nor the direction — no advance and no relaxation happen — while
the food-collision test still runs against the head: without a pickup the
snake, score and food are all unchanged, and with a pickup the score
increases by 10, five tail copies are appended after the unchanged
segments, and the food respawns. -/
theorem deadband_frame_spec (w h : ℝ) (finger : Option Point) (rand : Rand)
    (s : GState) (head : Seg) (rest : List Seg)
    (hs : s.snake = head :: rest)
    (hdead : ¬ 10 < Real.sqrt
        (((resolveTarget w h finger rand s.wanderTarget).1.x - head.x) *
            ((resolveTarget w h finger rand s.wanderTarget).1.x - head.x) +
          ((resolveTarget w h finger rand s.wanderTarget).1.y - head.y) *
            ((resolveTarget w h finger rand s.wanderTarget).1.y - head.y))) :
    (update w h finger rand s).direction = s.direction
    ∧ (¬ Real.sqrt ((head.x - s.food.x) * (head.x - s.food.x) +
          (head.y - s.food.y) * (head.y - s.food.y)) < 20 →
        (update w h finger rand s).snake = s.snake
        ∧ (update w h finger rand s).score = s.score
        ∧ (update w h finger rand s).food = s.food)
    ∧ (Real.sqrt ((head.x - s.food.x) * (head.x - s.food.x) +
          (head.y - s.food.y) * (head.y - s.food.y)) < 20 →
        (update w h finger rand s).snake =
          s.snake ++ List.replicate 5 (s.snake.getLastD head)
        ∧ (update w h finger rand s).score = s.score + 10
        ∧ (update w h finger rand s).food =
            spawnFood w h rand.foodR1 rand.foodR2) := by
  rw [update_eq w h finger rand s head rest hs]
  simp only [updateCore]
  rw [if_neg hdead]
  refine ⟨?_, fun hfd => ?_, fun hfd => ?_⟩
  · split <;> rfl
  · rw [if_neg hfd]
    exact ⟨hs.symm, rfl, rfl⟩
  · rw [if_pos hfd]
    exact ⟨by rw [hs], rfl, rfl⟩

theorem deadband_frame_spec_witness :
    ((⟨[⟨0, 0, 0⟩], ⟨3, 4⟩, ⟨1, 0⟩, 0, none⟩ : GState).snake =
      (⟨0, 0, 0⟩ : Seg) :: [])
    ∧ (¬ 10 < Real.sqrt
        (((resolveTarget 600 600 (some ⟨0, 0⟩) ⟨false, ⟨0, 0⟩, 0, 0, 7⟩
              none).1.x - (0 : ℝ)) *
            ((resolveTarget 600 600 (some ⟨0, 0⟩) ⟨false, ⟨0, 0⟩, 0, 0, 7⟩
              none).1.x - (0 : ℝ)) +
          ((resolveTarget 600 600 (some ⟨0, 0⟩) ⟨false, ⟨0, 0⟩, 0, 0, 7⟩
              none).1.y - (0 : ℝ)) *
            ((resolveTarget 600 600 (some ⟨0, 0⟩) ⟨false, ⟨0, 0⟩, 0, 0, 7⟩
              none).1.y - (0 : ℝ))))
    ∧ (update 600 600 (some ⟨0, 0⟩) ⟨false, ⟨0, 0⟩, 0, 0, 7⟩
        ⟨[⟨0, 0, 0⟩], ⟨3, 4⟩, ⟨1, 0⟩, 0, none⟩).direction = ⟨1, 0⟩ := by
  have hdead : ¬ 10 < Real.sqrt
      (((resolveTarget 600 600 (some ⟨0, 0⟩) ⟨false, ⟨0, 0⟩, 0, 0, 7⟩
            none).1.x - (0 : ℝ)) *
          ((resolveTarget 600 600 (some ⟨0, 0⟩) ⟨false, ⟨0, 0⟩, 0, 0, 7⟩
            none).1.x - (0 : ℝ)) +
        ((resolveTarget 600 600 (some ⟨0, 0⟩) ⟨false, ⟨0, 0⟩, 0, 0, 7⟩
            none).1.y - (0 : ℝ)) *
          ((resolveTarget 600 600 (some ⟨0, 0⟩) ⟨false, ⟨0, 0⟩, 0, 0, 7⟩
            none).1.y - (0 : ℝ))) := by
    simp only [resolveTarget]
    norm_num
  exact ⟨rfl, hdead,
    (deadband_frame_spec 600 600 (some ⟨0, 0⟩) ⟨false, ⟨0, 0⟩, 0, 0, 7⟩
      ⟨[⟨0, 0, 0⟩], ⟨3, 4⟩, ⟨1, 0⟩, 0, none⟩ ⟨0, 0, 0⟩ [] rfl hdead).1⟩

/-- The last element of a chain extended by five tail copies is the tail
copy itself, whatever the default. -/
theorem getLastD_append_rep5 (l : List Seg) (t : Seg) :
    ∀ d : Seg, (l ++ List.replicate 5 t).getLastD d = t := by
  induction l with
  | nil => intro d; rfl
  | cons a l ih =>
    intro d
    rw [List.cons_append, List.getLastD_cons]
    exact ih a

/-- Claim C9 (amended): within a tick the chain length never decreases;
every body segment carried over keeps its id in place; the head keeps its
id only on a deadband tick — on
a moving tick it is replaced by the fresh `Date.now()` stamp — and the
segments appended by growth all duplicate the tail's id rather than
receiving fresh identities. -/
theorem chain_identity_spec (w h : ℝ) (finger : Option Point) (rand : Rand)
    (s : GState) (head : Seg) (rest : List Seg)
    (hs : s.snake = head :: rest) :
    s.snake.length ≤ (update w h finger rand s).snake.length
    ∧ ((update w h finger rand s).snake.map Seg.id).take s.snake.length =
        (if 10 < Real.sqrt
            (((resolveTarget w h finger rand s.wanderTarget).1.x - head.x) *
                ((resolveTarget w h finger rand s.wanderTarget).1.x - head.x) +
              ((resolveTarget w h finger rand s.wanderTarget).1.y - head.y) *
                ((resolveTarget w h finger rand s.wanderTarget).1.y - head.y))
          then rand.newId :: rest.map Seg.id
          else head.id :: rest.map Seg.id)
    ∧ ((update w h finger rand s).snake.map Seg.id).drop s.snake.length =
        List.replicate
          ((update w h finger rand s).snake.length - s.snake.length)
          (((update w h finger rand s).snake.getLastD head).id) := by
  rw [update_eq w h finger rand s head rest hs, hs]
  simp only [updateCore]
  by_cases hmove : 10 < Real.sqrt
      (((resolveTarget w h finger rand s.wanderTarget).1.x - head.x) *
          ((resolveTarget w h finger rand s.wanderTarget).1.x - head.x) +
        ((resolveTarget w h finger rand s.wanderTarget).1.y - head.y) *
          ((resolveTarget w h finger rand s.wanderTarget).1.y - head.y))
  · rw [if_pos hmove, if_pos hmove]
    simp only [moveBranch]
    by_cases hpick : Real.sqrt ((head.x - s.food.x) * (head.x - s.food.x) +
        (head.y - s.food.y) * (head.y - s.food.y)) < 20
    · rw [if_pos hpick]
      refine ⟨by simp [relaxChain_length], ?_, ?_⟩
      · rw [List.map_append, List.take_left' (by simp [relaxChain_length])]
        simp [relaxChain_map_id]
      · rw [List.map_append, List.drop_left' (by simp [relaxChain_length])]
        rw [List.map_replicate, getLastD_append_rep5]
        congr 1
        simp [relaxChain_length]
    · rw [if_neg hpick]
      refine ⟨by simp [relaxChain_length], ?_, ?_⟩
      · rw [List.take_of_length_le (by simp [relaxChain_length])]
        simp [relaxChain_map_id]
      · rw [List.drop_eq_nil_of_le (by simp [relaxChain_length])]
        rw [show ((⟨wrapCoord (head.x + (blendNormalize s.direction
              ((resolveTarget w h finger rand s.wanderTarget).1.x - head.x)
              ((resolveTarget w h finger rand s.wanderTarget).1.y - head.y)
              (Real.sqrt
                (((resolveTarget w h finger rand s.wanderTarget).1.x -
                    head.x) *
                  ((resolveTarget w h finger rand s.wanderTarget).1.x -
                    head.x) +
                  ((resolveTarget w h finger rand s.wanderTarget).1.y -
                    head.y) *
                  ((resolveTarget w h finger rand s.wanderTarget).1.y -
                    head.y)))).x * SNAKE_SPEED) w, _, _⟩ : Seg) ::
            relaxChain _ rest).length - (head :: rest).length = 0 from by
          simp [relaxChain_length]]
        simp
  · rw [if_neg hmove, if_neg hmove]
    by_cases hpick : Real.sqrt ((head.x - s.food.x) * (head.x - s.food.x) +
        (head.y - s.food.y) * (head.y - s.food.y)) < 20
    · rw [if_pos hpick]
      refine ⟨by simp, ?_, ?_⟩
      · rw [List.map_append, List.take_left' (by simp)]
        simp
      · rw [List.map_append, List.drop_left' (by simp)]
        rw [List.map_replicate, getLastD_append_rep5]
        congr 1
        simp
    · rw [if_neg hpick]
      refine ⟨by simp, ?_, ?_⟩
      · rw [List.take_of_length_le (by simp)]
        simp
      · rw [List.drop_eq_nil_of_le (by simp)]
        simp

theorem chain_identity_spec_witness :
    ((⟨[⟨0, 0, 0⟩], ⟨300, 300⟩, ⟨1, 0⟩, 0, none⟩ : GState).snake =
      (⟨0, 0, 0⟩ : Seg) :: [])
    ∧ (⟨[⟨0, 0, 0⟩], ⟨300, 300⟩, ⟨1, 0⟩, 0, none⟩ : GState).snake.length ≤
        (update 600 600 (some ⟨0, 0⟩) ⟨false, ⟨0, 0⟩, 0, 0, 7⟩
          ⟨[⟨0, 0, 0⟩], ⟨300, 300⟩, ⟨1, 0⟩, 0, none⟩).snake.length :=
  ⟨rfl,
    (chain_identity_spec 600 600 (some ⟨0, 0⟩) ⟨false, ⟨0, 0⟩, 0, 0, 7⟩
      ⟨[⟨0, 0, 0⟩], ⟨300, 300⟩, ⟨1, 0⟩, 0, none⟩ ⟨0, 0, 0⟩ [] rfl).1⟩

/-- Claim C9, counterexample: a deadband tick with a food pickup (head on
the food, target on the head).  The single pre-existing segment has id 0;
after the tick the chain ids are six copies of 0 — the five appended
growth segments duplicate the tail's id 0, which already occurs in the
chain, so newly appended segments do not receive fresh identities. -/
theorem growth_ids_not_fresh :
    (update 600 600 (some ⟨0, 0⟩) ⟨false, ⟨0, 0⟩, 0, 0, 7⟩
        ⟨[⟨0, 0, 0⟩], ⟨0, 0⟩, ⟨1, 0⟩, 0, none⟩).snake.map Seg.id =
      [0, 0, 0, 0, 0, 0]
    ∧ (⟨[⟨0, 0, 0⟩], ⟨0, 0⟩, ⟨1, 0⟩, 0, none⟩ : GState).snake.map Seg.id = [0]
    ∧ ¬ ([(0 : ℤ), 0, 0, 0, 0, 0].Nodup) := by
  refine ⟨?_, by simp, by decide⟩
  rw [update_eq 600 600 (some ⟨0, 0⟩) ⟨false, ⟨0, 0⟩, 0, 0, 7⟩
    ⟨[⟨0, 0, 0⟩], ⟨0, 0⟩, ⟨1, 0⟩, 0, none⟩ ⟨0, 0, 0⟩ [] rfl]
  simp only [updateCore, resolveTarget]
  norm_num
  rfl

/-- Claim C2, counterexample: a concrete moving tick with the head at
x = 598 and direction (1, 0) toward a target straight to the right on a
600-wide canvas.  The head advances to x = 598 + 3 = 601 = bound + 1, so
the overshoot is 1 and the claim requires the wrapped coordinate to be 1;
the code instead places it at exactly 0, discarding the overshoot. -/
theorem wrap_discards_overshoot :
    ((598 : ℝ) + 1 * SNAKE_SPEED = 600 + 1)
    ∧ ((update 600 600 (some ⟨698 / 600, 0⟩) ⟨false, ⟨0, 0⟩, 0, 0, 7⟩
          ⟨[⟨598, 0, 0⟩], ⟨300, 300⟩, ⟨1, 0⟩, 0, none⟩).snake.getD 0
            ⟨0, 0, 0⟩).x = 0
    ∧ ((0 : ℝ) ≠ 1) := by
  refine ⟨by norm_num [SNAKE_SPEED], ?_, by norm_num⟩
  rw [update_eq 600 600 (some ⟨698 / 600, 0⟩) ⟨false, ⟨0, 0⟩, 0, 0, 7⟩
    ⟨[⟨598, 0, 0⟩], ⟨300, 300⟩, ⟨1, 0⟩, 0, none⟩ ⟨598, 0, 0⟩ [] rfl]
  have hsqrt1 : Real.sqrt 10000 = 100 := by
    rw [show (10000 : ℝ) = 100 ^ 2 by norm_num,
      Real.sqrt_sq (by norm_num : (0 : ℝ) ≤ 100)]
  have hfood : ¬ Real.sqrt 178804 < 20 :=
    not_lt.mpr ((Real.le_sqrt (by norm_num) (by norm_num)).mpr (by norm_num))
  simp only [updateCore, resolveTarget, moveBranch, blendNormalize, blendVec,
    wrapCoord, relaxChain, TURN_RATE, SNAKE_SPEED]
  norm_num [hsqrt1, hfood, Real.sqrt_one, Real.sqrt_zero]

end

end FingerSnake
